import Mathlib

/-!
Shallow embedding of the query-to-section resolution pipeline of
src/app.py (Kenyan 2010 Constitution chatbot): the functions
preprocess_query, correct_spelling, match_with_synonyms and
answer_question_nlp, together with the knowledge tables they consult.
External collaborators (the spaCy pipeline and the pyspellchecker
dictionary) are modelled abstractly; their possible failures appear as
Option results, matching the try/except structure of the source.
-/

/-- A spaCy-style token as consumed by preprocess_query in app.py:
surface text, lemma (the Python attribute is spelled lemma_), and the
three filter flags the code reads. -/
structure Token where
  text : String
  lemma_ : String
  is_stop : Bool
  is_punct : Bool
  is_space : Bool

/-- Abstract model of the spaCy pipeline object nlp. run q = none models
the case where tokenization or lemmatization raises (the exception is
caught inside preprocess_query); run q = some doc is a successful parse. -/
structure NLPModel where
  run : String → Option (List Token)

/-- Abstract model of pyspellchecker.SpellChecker: known w models
membership in the reference word-frequency dictionary (the complement of
spell.unknown), and correction w = none models spell.correction(w)
returning None, i.e. no correction candidate found. -/
structure SpellModel where
  known : String → Bool
  correction : String → Option String

/-- Python substring test: needle in hay (true for the empty needle). -/
def containsSub (hay needle : String) : Bool :=
  decide (needle.toList <:+: hay.toList)

/-- Python sep.join(parts). -/
def joinSep (sep : String) : List String → String
  | [] => ""
  | [w] => w
  | w :: ws => w ++ sep ++ joinSep sep ws

/-- Python str.lower(), applied characterwise (ASCII case folding). -/
def pyLower (s : String) : String :=
  ⟨s.toList.map Char.toLower⟩

/-- Helper for pySplit: walk the characters, accumulating the current word
in reverse; whitespace closes the current word, and empty pieces between
consecutive whitespace characters are dropped. -/
def pySplitAux : List Char → List Char → List String
  | [], acc => if acc.isEmpty then [] else [⟨acc.reverse⟩]
  | c :: cs, acc =>
    if c.isWhitespace then
      if acc.isEmpty then pySplitAux cs []
      else ⟨acc.reverse⟩ :: pySplitAux cs []
    else pySplitAux cs (c :: acc)

/-- Python str.split() with no argument: split on whitespace runs,
discarding empty pieces. -/
def pySplit (s : String) : List String :=
  pySplitAux s.toList []

/-- preprocess_query from app.py (lines 64-75): lemmatize and lowercase the
non-stopword, non-punctuation, non-space tokens and join them with single
spaces; if the NLP call raises, fall back to the lowercased raw query. -/
def preprocess_query (m : NLPModel) (query : String) : String :=
  match m.run query with
  | some doc =>
      joinSep " " ((doc.filter
        (fun t => !t.is_stop && !t.is_punct && !t.is_space)).map
        (fun t => pyLower t.lemma_))
  | none => pyLower query

/-- Sequence a list of optional values: some of the list when every entry
is present, none as soon as one entry is missing. Models the fact that
Python can only join a list of actual strings. -/
def allSome {α : Type} : List (Option α) → Option (List α)
  | [] => some []
  | none :: _ => none
  | some a :: rest => (allSome rest).map (fun l => a :: l)

/-- correct_spelling from app.py (lines 77-89): words already in the
dictionary are kept, unknown words are replaced by spell.correction.
When spell.correction yields None for some word, the Python expression
" ".join(corrected) raises TypeError and the except clause returns the
input unchanged; that is the none branch of the allSome below. -/
def correct_spelling (sp : SpellModel) (processed_query : String) : String :=
  let words := pySplit processed_query
  let corrected := words.map
    (fun w => if sp.known w then some w else sp.correction w)
  match allSome corrected with
  | some ws => joinSep " " ws
  | none => processed_query

/-- Python synonyms.get(key, []). -/
def synGet (synonyms : List (String × List String)) (key : String) :
    List String :=
  match synonyms.find? (fun p => p.1 == key) with
  | some p => p.2
  | none => []

/-- Python dict lookup tbl[k] guarded by k in tbl, for string tables
modelled as association lists in declared (insertion) order. -/
def lookup (tbl : List (String × String)) (k : String) : Option String :=
  (tbl.find? (fun p => p.1 == k)).map (fun p => p.2)

/-- match_with_synonyms from app.py (lines 91-118): preprocess and
spell-correct the query, then try in order (a) the citizenship subtopic
substring rules in declared order, (b) the general citizenship substring
rule returning the sentinel key, (c) the synonym-expanded key substring
rules in declared order; none if no rule fires. -/
def match_with_synonyms (m : NLPModel) (sp : SpellModel) (query : String)
    (qa_mapping : List String) (synonyms : List (String × List String))
    (citizenship_mapping : List (String × String)) : Option String :=
  let processed_query := preprocess_query m query
  let corrected_query := correct_spelling sp processed_query
  match citizenship_mapping.find?
      (fun p => containsSub corrected_query (pyLower p.1)) with
  | some p => some p.2
  | none =>
    if containsSub corrected_query "citizenship" then some "citizenship"
    else qa_mapping.find? (fun key =>
      (pyLower key :: (synGet synonyms key).map pyLower).any
        (fun term => containsSub corrected_query term))

/-- The knowledge tables of app.py: sections, synonyms, qa_mapping and
citizenship_mapping are loaded from JSON files at startup (empty on load
failure); the prioritized phrase table is declared inside
answer_question_nlp. All are modelled as ordered association structures
because iteration order determines rule priority. -/
structure KB where
  sections : List (String × String)
  synonyms : List (String × List String)
  qa_mapping : List String
  citizenship_mapping : List (String × String)
  prioritized_phrases : List (List String × String)

/-- Python repr of a list of strings, as interpolated by the f-string for
the citizenship subtopic listing in app.py. -/
def pyStrList (ks : List String) : String :=
  "[" ++ joinSep ", " (ks.map (fun k => "\x27" ++ k ++ "\x27")) ++ "]"

/-- The citizenship-sentinel response of app.py (lines 146-147). -/
def citizenship_message (citizenship_mapping : List (String × String)) :
    String :=
  "It seems you\x27re interested in citizenship. Available subtopics include: "
    ++ pyStrList (citizenship_mapping.map Prod.fst) ++ "."

/-- The fixed no-answer guidance text of app.py (lines 149-153). -/
def no_match_message : String :=
  "Sorry, I couldn\x27t find an answer to your question. Try asking about specific topics like:\n- Citizenship requirements\n- Parliamentary authority\n- Constitutional amendments"

/-- The fixed apology text of the outer except clause (line 157). -/
def error_message : String :=
  "Sorry, I encountered an error processing your question."

/-- answer_question_nlp from app.py (lines 120-157). The prioritized
phrase loop returns sections[key] for the first rule whose terms all occur
in the lowercased raw query AND whose key is present in sections (a
satisfied rule with a missing key falls through to the next rule); then
the synonym matcher runs, its key is looked up in sections, the
citizenship sentinel produces the subtopic listing, and otherwise the
fixed guidance text is returned. The outer try/except cannot fire in this
model because every sub-stage catches its own failures, so the function is
the translation of the try body; error_message is the text of its except
branch. -/
def answer_question_nlp (m : NLPModel) (sp : SpellModel) (kb : KB)
    (query : String) : String :=
  let query_lower := pyLower query
  match kb.prioritized_phrases.findSome? (fun r =>
      if r.1.all (fun term => containsSub query_lower term) then
        lookup kb.sections r.2
      else none) with
  | some ans => ans
  | none =>
    match match_with_synonyms m sp query kb.qa_mapping kb.synonyms
        kb.citizenship_mapping with
    | some section_key =>
      match lookup kb.sections section_key with
      | some ans => ans
      | none =>
        if section_key == "citizenship" then
          citizenship_message kb.citizenship_mapping
        else no_match_message
    | none => no_match_message

/-- The prioritized phrase rules hardcoded in answer_question_nlp
(lines 126-131; the source comment marks the table as abridged). -/
def source_prioritized_phrases : List (List String × String) :=
  [(["language", "culture"], "language culture"),
   (["implementation", "rights"], "implementation right"),
   (["authority", "court", "bill", "right"], "authority court bill right")]

/-! Concrete models of the external collaborators, used to exercise the
theorems below on closed inputs. -/

/-- An NLP model whose run always raises; exercises the fallback paths. -/
def nlpFail : NLPModel := ⟨fun _ => none⟩

/-- An NLP model that parses the whole input as a single clean token whose
lemma is the input itself. -/
def nlpEcho : NLPModel := ⟨fun s => some [⟨s, s, false, false, false⟩]⟩

/-- A spell model that recognizes every word; correction is never used. -/
def spellAllKnown : SpellModel := ⟨fun _ => true, fun _ => none⟩

/-- A spell model where hello is in the dictionary, helo has the correction
candidate hello, and every other word has no correction candidate. -/
def spellHello : SpellModel :=
  ⟨fun w => w == "hello", fun w => if w == "helo" then some "hello" else none⟩

/-! Helper lemmas about the loop combinators used by the embedding. -/

lemma toList_append (a b : String) : (a ++ b).toList = a.toList ++ b.toList :=
  String.data_append a b

lemma findSome_if_eq_some {α β : Type} (P : α → Bool) (f : α → Option β) :
    ∀ (l : List α) (a : α) (b : β), l.find? P = some a → f a = some b →
      l.findSome? (fun x => if P x then f x else none) = some b := by
  intro l
  induction l with
  | nil => intro a b h1 _; simp at h1
  | cons x xs ih =>
    intro a b h1 h2
    rw [List.findSome?_cons]
    by_cases hP : P x
    · rw [List.find?_cons_of_pos _ hP] at h1
      injection h1 with h1
      subst h1
      simp [hP, h2]
    · rw [List.find?_cons_of_neg _ hP] at h1
      simp only [hP]
      simpa using ih a b h1 h2

lemma findSome_if_eq_none {α β : Type} (P : α → Bool) (f : α → Option β)
    (l : List α) (h : ∀ a ∈ l, P a = false) :
    l.findSome? (fun x => if P x then f x else none) = none := by
  rw [List.findSome?_eq_none_iff]
  intro x hx
  simp [h x hx]

lemma allSome_map_eq_some {α β : Type} (f : α → Option β) (g : α → β) :
    ∀ l : List α, (∀ a ∈ l, f a = some (g a)) →
      allSome (l.map f) = some (l.map g) := by
  intro l
  induction l with
  | nil => intro _; rfl
  | cons x xs ih =>
    intro h
    rw [List.map_cons, h x (List.mem_cons_self x xs), List.map_cons]
    simp [allSome, ih (fun a ha => h a (List.mem_cons_of_mem x ha))]

lemma allSome_map_eq_none {α β : Type} (f : α → Option β) :
    ∀ l : List α, (∃ a ∈ l, f a = none) → allSome (l.map f) = none := by
  intro l
  induction l with
  | nil => rintro ⟨a, ha, -⟩; simp at ha
  | cons x xs ih =>
    rintro ⟨a, ha, hfa⟩
    rw [List.map_cons]
    rcases List.mem_cons.mp ha with h1 | h2
    · subst h1
      rw [hfa]
      rfl
    · cases hfx : f x with
      | none => rfl
      | some y => simp [allSome, ih ⟨a, h2, hfa⟩]

lemma infix_of_mem_joinSep (sep a : String) :
    ∀ l : List String, a ∈ l → a.toList <:+: (joinSep sep l).toList
  | [], h => absurd h (List.not_mem_nil a)
  | [w], h => by
      have hw : a = w := by simpa using h
      subst hw
      exact ⟨[], [], by simp [joinSep]⟩
  | w :: x :: xs, h => by
      rcases List.mem_cons.mp h with h1 | h2
      · subst h1
        refine ⟨[], (sep ++ joinSep sep (x :: xs)).toList, ?_⟩
        simp [joinSep, toList_append]
      · obtain ⟨s, t, hst⟩ := infix_of_mem_joinSep sep a (x :: xs) h2
        refine ⟨(w ++ sep).toList ++ s, t, ?_⟩
        simp only [joinSep, toList_append, List.append_assoc, ← hst]

/-- C6: if tokenization or lemmatization fails for any reason (modelled as
m.run query = none), preprocess_query returns the lowercased raw input
unsegmented; being a total function of the failure-aware model, it never
raises to its caller. -/
theorem preprocess_query_fallback (m : NLPModel) (query : String)
    (h : m.run query = none) :
    preprocess_query m query = pyLower query := by
  simp [preprocess_query, h]

/-- C6 witness: the fallback evaluated on an always-failing NLP model. -/
theorem preprocess_query_fallback_witness :
    preprocess_query nlpFail "Hello, World!" = pyLower "Hello, World!" :=
  preprocess_query_fallback nlpFail "Hello, World!" rfl

/-- C1: if the first prioritized-phrase rule all of whose required terms
occur as substrings of the lowercased raw query is r0, and r0's target key
is present in the section table with answer text ans, then the resolver
returns ans for every behaviour of the NLP and spell-checker stages: the
phrase check short-circuits normalization, correction and matching. -/
theorem prioritized_phrase_short_circuits (m : NLPModel) (sp : SpellModel)
    (kb : KB) (query : String) (r0 : List String × String) (ans : String)
    (hfirst : kb.prioritized_phrases.find?
      (fun r => r.1.all (fun term => containsSub (pyLower query) term)) =
      some r0)
    (hans : lookup kb.sections r0.2 = some ans) :
    answer_question_nlp m sp kb query = ans := by
  have hf : List.findSome? (fun r =>
      if r.1.all (fun term => containsSub (pyLower query) term) then
        lookup kb.sections r.2
      else none) kb.prioritized_phrases = some ans :=
    findSome_if_eq_some _ _ kb.prioritized_phrases r0 ans hfirst hans
  simp only [answer_question_nlp, hf]

/-- C1 witness: a query containing both terms of the first source phrase
rule resolves to that rule's section text even though the NLP stage fails
and the section tables know nothing else. -/
theorem prioritized_phrase_short_circuits_witness :
    answer_question_nlp nlpFail spellAllKnown
      ⟨[("language culture", "LC text")], [], [], [], source_prioritized_phrases⟩
      "Language and CULTURE" = "LC text" :=
  prioritized_phrase_short_circuits nlpFail spellAllKnown
    ⟨[("language culture", "LC text")], [], [], [], source_prioritized_phrases⟩
    "Language and CULTURE" (["language", "culture"], "language culture")
    "LC text" (by decide) (by decide)

/-- C8: when no prioritized phrase rule has all its required terms in the
lowercased raw query and the matcher returns the no-match sentinel, the
resolver returns exactly the fixed no-answer guidance text. -/
theorem unmatched_query_guidance (m : NLPModel) (sp : SpellModel) (kb : KB)
    (query : String)
    (hphp : ∀ r ∈ kb.prioritized_phrases,
      r.1.all (fun term => containsSub (pyLower query) term) = false)
    (hmatch : match_with_synonyms m sp query kb.qa_mapping kb.synonyms
      kb.citizenship_mapping = none) :
    answer_question_nlp m sp kb query = no_match_message := by
  have hf : List.findSome? (fun r =>
      if r.1.all (fun term => containsSub (pyLower query) term) then
        lookup kb.sections r.2
      else none) kb.prioritized_phrases = none :=
    findSome_if_eq_none _ _ kb.prioritized_phrases hphp
  simp only [answer_question_nlp, hf, hmatch]

/-- C8 witness: a gibberish query against empty tables yields the fixed
guidance text. -/
theorem unmatched_query_guidance_witness :
    answer_question_nlp nlpFail spellAllKnown ⟨[], [], [], [], []⟩ "zzz" =
      no_match_message :=
  unmatched_query_guidance nlpFail spellAllKnown ⟨[], [], [], [], []⟩ "zzz"
    (by decide) (by decide)

/-- C10: a prioritized phrase rule that is satisfied by the query but whose
target key is absent from the section table does not stop resolution: the
answer with that rule at the head of the phrase table equals the answer
with the rule removed, so the remaining rules in declared order and then
the normalizer, corrector and matcher stages still decide the result. -/
theorem missing_section_key_falls_through (m : NLPModel) (sp : SpellModel)
    (secs : List (String × String)) (syn : List (String × List String))
    (qa : List String) (cm : List (String × String))
    (r : List String × String) (rest : List (List String × String))
    (query : String)
    (_hsat : r.1.all (fun term => containsSub (pyLower query) term) = true)
    (hmiss : lookup secs r.2 = none) :
    answer_question_nlp m sp ⟨secs, syn, qa, cm, r :: rest⟩ query =
      answer_question_nlp m sp ⟨secs, syn, qa, cm, rest⟩ query := by
  simp [answer_question_nlp, List.findSome?_cons, hmiss]

/-- C10 witness: a satisfied rule pointing at a missing key behaves exactly
as if the rule were not there, and in particular the next rule still wins. -/
theorem missing_section_key_falls_through_witness :
    answer_question_nlp nlpFail spellAllKnown
      ⟨[("b", "B text")], [], [], [], [(["x"], "missing"), (["x"], "b")]⟩
      "x" =
    answer_question_nlp nlpFail spellAllKnown
      ⟨[("b", "B text")], [], [], [], [(["x"], "b")]⟩ "x" :=
  missing_section_key_falls_through nlpFail spellAllKnown [("b", "B text")]
    [] [] [] (["x"], "missing") [(["x"], "b")] "x" (by decide) (by decide)

/-- C2: on the corrected query text, the matcher tries its rules in strict
order - citizenship subtopic substring rules in declared order, then the
general citizenship substring rule, then the synonym-expanded key rules in
declared order - and the first rule that fires decides the result with no
later rule evaluated: a firing subtopic decides the key for arbitrary
qa/synonym tables, the general rule fires only when no subtopic fired, and
the synonym stage is consulted only when neither earlier stage fired, in
which case the result is the first qa key one of whose search terms occurs
in the corrected text (none when no rule fires at all). -/
theorem matcher_rule_order (m : NLPModel) (sp : SpellModel) (query : String)
    (qa_mapping : List String) (synonyms : List (String × List String))
    (citizenship_mapping : List (String × String)) (cq : String)
    (hcq : correct_spelling sp (preprocess_query m query) = cq) :
    (∀ p : String × String,
      citizenship_mapping.find?
        (fun r => containsSub cq (pyLower r.1)) = some p →
      match_with_synonyms m sp query qa_mapping synonyms
        citizenship_mapping = some p.2) ∧
    (citizenship_mapping.find?
        (fun r => containsSub cq (pyLower r.1)) = none →
      containsSub cq "citizenship" = true →
      match_with_synonyms m sp query qa_mapping synonyms
        citizenship_mapping = some "citizenship") ∧
    (citizenship_mapping.find?
        (fun r => containsSub cq (pyLower r.1)) = none →
      containsSub cq "citizenship" = false →
      match_with_synonyms m sp query qa_mapping synonyms
        citizenship_mapping =
      qa_mapping.find? (fun key =>
        (pyLower key :: (synGet synonyms key).map pyLower).any
          (fun term => containsSub cq term))) := by
  subst hcq
  refine ⟨?_, ?_, ?_⟩
  · intro p hp
    simp only [match_with_synonyms, hp]
  · intro hnone hcit
    simp only [match_with_synonyms, hnone, hcit, if_true]
  · intro hnone hcit
    simp only [match_with_synonyms, hnone, hcit]
    simp

/-- C2 witness: the general citizenship rule fires on the corrected text
once no subtopic substring occurs in it. -/
theorem matcher_rule_order_witness :
    match_with_synonyms nlpFail spellAllKnown "citizenship" [] []
      [("general provisions", "gp")] = some "citizenship" :=
  (matcher_rule_order nlpFail spellAllKnown "citizenship" [] []
    [("general provisions", "gp")] "citizenship" (by decide)).2.1
    (by decide) (by decide)

/-- C7: the normalizer is idempotent on already-normalized input: if the
model parses x into tokens none of which is a stopword, punctuation or
whitespace, each token's lowercased lemma is its own surface text, and the
space-join of the surface texts is x itself, then normalizing x returns x,
hence normalizing twice equals normalizing once. -/
theorem preprocess_query_idempotent (m : NLPModel) (x : String)
    (doc : List Token) (hrun : m.run x = some doc)
    (hclean : ∀ t ∈ doc, t.is_stop = false ∧ t.is_punct = false ∧
      t.is_space = false ∧ pyLower t.lemma_ = t.text)
    (hjoin : joinSep " " (doc.map Token.text) = x) :
    preprocess_query m (preprocess_query m x) = preprocess_query m x := by
  have hx : preprocess_query m x = x := by
    simp only [preprocess_query, hrun]
    have hfil : doc.filter
        (fun t => !t.is_stop && !t.is_punct && !t.is_space) = doc :=
      List.filter_eq_self.mpr (fun t ht => by
        rcases hclean t ht with ⟨h1, h2, h3, -⟩
        simp [h1, h2, h3])
    rw [hfil, List.map_congr_left (fun t ht => (hclean t ht).2.2.2)]
    exact hjoin
  rw [hx]
  exact hx

/-- C7 witness: idempotence at a concrete normalized input under a model
that parses the input as one clean token. -/
theorem preprocess_query_idempotent_witness :
    preprocess_query nlpEcho (preprocess_query nlpEcho "hello") =
      preprocess_query nlpEcho "hello" :=
  preprocess_query_idempotent nlpEcho "hello"
    [⟨"hello", "hello", false, false, false⟩] rfl (by decide) (by decide)

/-- C5 counterexample: under the spell model where helo is unknown with
best correction hello and zzqq is unknown with no correction candidate,
correcting "zzqq helo" returns the input unchanged: the unknown token helo,
which has a best correction, is NOT replaced, because the absent candidate
for zzqq makes the join fail and the except clause return the whole input.
The claim predicts the output "zzqq hello". -/
theorem correct_spelling_counterexample :
    spellHello.known "helo" = false ∧
    spellHello.correction "helo" = some "hello" ∧
    spellHello.known "zzqq" = false ∧
    spellHello.correction "zzqq" = none ∧
    correct_spelling spellHello "zzqq helo" = "zzqq helo" ∧
    correct_spelling spellHello "zzqq helo" ≠ "zzqq hello" :=
  ⟨by decide, by decide, by decide, by decide, by decide, by decide⟩

/-- C5 (amended): when every unknown token has a correction candidate, the
corrector keeps dictionary-known tokens, replaces unknown tokens by their
best correction, and rejoins with single spaces; when some token is
unknown with no candidate, the join of corrections fails and the entire
input comes back unchanged - so a token with no candidate is indeed left
as-is and nothing is dropped, but in that case the other unknown tokens
are not replaced either. -/
theorem correct_spelling_cases (sp : SpellModel) (pq : String) :
    ((∀ w ∈ pySplit pq, sp.known w = false → (sp.correction w).isSome) →
      correct_spelling sp pq = joinSep " " ((pySplit pq).map
        (fun w => if sp.known w then w else (sp.correction w).getD w))) ∧
    ((∃ w ∈ pySplit pq, sp.known w = false ∧ sp.correction w = none) →
      correct_spelling sp pq = pq) := by
  constructor
  · intro h
    have hall : allSome ((pySplit pq).map
        (fun w => if sp.known w then some w else sp.correction w)) =
        some ((pySplit pq).map
          (fun w => if sp.known w then w else (sp.correction w).getD w)) := by
      apply allSome_map_eq_some
      intro w hw
      by_cases hk : sp.known w
      · simp [hk]
      · have hk2 : sp.known w = false := by simpa using hk
        rcases Option.isSome_iff_exists.mp (h w hw hk2) with ⟨c, hc⟩
        simp [hk, hc]
    simp only [correct_spelling, hall]
  · rintro ⟨w, hw, hk, hc⟩
    have hnone : allSome ((pySplit pq).map
        (fun w => if sp.known w then some w else sp.correction w)) = none := by
      apply allSome_map_eq_none
      exact ⟨w, hw, by simp [hk, hc]⟩
    simp only [correct_spelling, hnone]

/-- C5 witness: under a model that knows every word, correction is the
identity rejoin of the split words. -/
theorem correct_spelling_cases_witness :
    correct_spelling spellAllKnown "a b" = joinSep " " ((pySplit "a b").map
      (fun w => if spellAllKnown.known w then w
        else (spellAllKnown.correction w).getD w)) :=
  (correct_spelling_cases spellAllKnown "a b").1 (by decide)

lemma lookup_eq_some_mem (tbl : List (String × String)) (k v : String)
    (h : lookup tbl k = some v) : ∃ p ∈ tbl, p.2 = v := by
  unfold lookup at h
  rcases Option.map_eq_some'.mp h with ⟨q, hq, hv⟩
  exact ⟨q, List.mem_of_find?_eq_some hq, hv⟩

lemma findSome_if_mem {α β : Type} (P : α → Bool) (f : α → Option β)
    (l : List α) (b : β)
    (h : l.findSome? (fun x => if P x then f x else none) = some b) :
    ∃ a ∈ l, f a = some b := by
  rcases List.findSome?_eq_some_iff.mp h with ⟨l₁, a, l₂, hl, hfa, -⟩
  refine ⟨a, by simp [hl], ?_⟩
  by_cases hP : P a
  · simpa [hP] using hfa
  · simp [hP] at hfa

lemma answer_shape (m : NLPModel) (sp : SpellModel) (kb : KB)
    (query : String) :
    (∃ p ∈ kb.sections, answer_question_nlp m sp kb query = p.2) ∨
    answer_question_nlp m sp kb query =
      citizenship_message kb.citizenship_mapping ∨
    answer_question_nlp m sp kb query = no_match_message := by
  rcases hf : List.findSome? (fun r =>
      if r.1.all (fun term => containsSub (pyLower query) term) then
        lookup kb.sections r.2
      else none) kb.prioritized_phrases with - | ans
  case some =>
    obtain ⟨r, -, hlr⟩ := findSome_if_mem _ _ _ _ hf
    obtain ⟨p, hp, hpv⟩ := lookup_eq_some_mem kb.sections r.2 ans hlr
    refine Or.inl ⟨p, hp, ?_⟩
    simp only [answer_question_nlp, hf]
    exact hpv.symm
  case none =>
    rcases hm : match_with_synonyms m sp query kb.qa_mapping kb.synonyms
        kb.citizenship_mapping with - | key
    case none =>
      refine Or.inr (Or.inr ?_)
      simp only [answer_question_nlp, hf, hm]
    case some =>
      rcases hl : lookup kb.sections key with - | ans
      case some =>
        obtain ⟨p, hp, hpv⟩ := lookup_eq_some_mem kb.sections key ans hl
        refine Or.inl ⟨p, hp, ?_⟩
        simp only [answer_question_nlp, hf, hm, hl]
        exact hpv.symm
      case none =>
        by_cases hk : key == "citizenship"
        · refine Or.inr (Or.inl ?_)
          simp only [answer_question_nlp, hf, hm, hl, hk, if_true]
        · refine Or.inr (Or.inr ?_)
          simp only [answer_question_nlp, hf, hm, hl]
          simp [hk]

/-- C4: resolution is total: for every query string (empty, punctuation or
non-Latin text alike) and every behaviour of the external NLP and spelling
collaborators, including failing ones, answer_question_nlp returns one of
its intended answer strings. No exception escapes: every failure of a
sub-stage is absorbed by that stage's own handler inside the pipeline, so
the outer except branch (the fixed apology error_message) is never even
reached in the model. -/
theorem answer_never_raises (m : NLPModel) (sp : SpellModel) (kb : KB)
    (query : String) :
    (∃ p ∈ kb.sections, answer_question_nlp m sp kb query = p.2) ∨
    answer_question_nlp m sp kb query =
      citizenship_message kb.citizenship_mapping ∨
    answer_question_nlp m sp kb query = no_match_message :=
  answer_shape m sp kb query

lemma no_match_message_ne_empty : no_match_message ≠ "" := by decide

lemma citizenship_message_ne_empty (cm : List (String × String)) :
    citizenship_message cm ≠ "" := by
  intro h
  have hlen := congrArg String.length h
  rw [citizenship_message, String.length_append, String.length_append] at hlen
  have h1 : 0 < ("It seems you\x27re interested in citizenship. Available subtopics include: " : String).length := by decide
  have h0 : ("" : String).length = 0 := rfl
  rw [h0] at hlen
  omega

/-- C9: provided every stored section text is non-empty (an invariant of
the knowledge data; the fixed messages are non-empty literals), the string
the resolver returns to the transport collaborator is non-empty for every
query and every behaviour of the external stages. -/
theorem answer_nonempty (m : NLPModel) (sp : SpellModel) (kb : KB)
    (query : String) (hsec : ∀ p ∈ kb.sections, p.2 ≠ "") :
    answer_question_nlp m sp kb query ≠ "" := by
  rcases answer_shape m sp kb query with ⟨p, hp, he⟩ | he | he
  · rw [he]
    exact hsec p hp
  · rw [he]
    exact citizenship_message_ne_empty kb.citizenship_mapping
  · rw [he]
    exact no_match_message_ne_empty

/-- C9 witness: non-empty output on an empty knowledge base and query. -/
theorem answer_nonempty_witness :
    answer_question_nlp nlpFail spellAllKnown ⟨[], [], [], [], []⟩ "" ≠ "" :=
  answer_nonempty nlpFail spellAllKnown ⟨[], [], [], [], []⟩ "" (by decide)

/-- C3: if no prioritized phrase rule is satisfied by the raw query, the
corrected text contains the substring citizenship but no citizenship
subtopic label, and the sentinel key citizenship is not itself a section
key (the data model reserves it for special-cased response generation),
then the resolver returns the generated subtopic-listing message, and that
message contains every subtopic label of the citizenship table. -/
theorem citizenship_sentinel_lists_subtopics (m : NLPModel) (sp : SpellModel)
    (kb : KB) (query : String)
    (hphp : ∀ r ∈ kb.prioritized_phrases,
      r.1.all (fun term => containsSub (pyLower query) term) = false)
    (hsub : ∀ p ∈ kb.citizenship_mapping,
      containsSub (correct_spelling sp (preprocess_query m query))
        (pyLower p.1) = false)
    (hcit : containsSub (correct_spelling sp (preprocess_query m query))
      "citizenship" = true)
    (hsec : lookup kb.sections "citizenship" = none) :
    answer_question_nlp m sp kb query =
      citizenship_message kb.citizenship_mapping ∧
    ∀ p ∈ kb.citizenship_mapping,
      containsSub (citizenship_message kb.citizenship_mapping) p.1 = true := by
  constructor
  · have hf : List.findSome? (fun r =>
        if r.1.all (fun term => containsSub (pyLower query) term) then
          lookup kb.sections r.2
        else none) kb.prioritized_phrases = none :=
      findSome_if_eq_none _ _ kb.prioritized_phrases hphp
    have hcm : kb.citizenship_mapping.find?
        (fun p => containsSub (correct_spelling sp (preprocess_query m query))
          (pyLower p.1)) = none :=
      List.find?_eq_none.mpr (fun p hp => by simp [hsub p hp])
    have hm : match_with_synonyms m sp query kb.qa_mapping kb.synonyms
        kb.citizenship_mapping = some "citizenship" := by
      simp only [match_with_synonyms, hcm, hcit, if_true]
    simp only [answer_question_nlp, hf, hm, hsec]
    simp
  · intro p hp
    have hmem : ("\x27" ++ p.1 ++ "\x27") ∈
        (kb.citizenship_mapping.map Prod.fst).map
          (fun k => "\x27" ++ k ++ "\x27") :=
      List.mem_map_of_mem _ (List.mem_map_of_mem _ hp)
    have hj := infix_of_mem_joinSep ", " ("\x27" ++ p.1 ++ "\x27") _ hmem
    have hq : p.1.toList <:+: ("\x27" ++ p.1 ++ "\x27").toList :=
      ⟨"\x27".toList, "\x27".toList, by simp [toList_append]⟩
    have hwrap : (joinSep ", " ((kb.citizenship_mapping.map Prod.fst).map
        (fun k => "\x27" ++ k ++ "\x27"))).toList <:+:
        (citizenship_message kb.citizenship_mapping).toList := by
      refine ⟨("It seems you\x27re interested in citizenship. Available subtopics include: " ++ "[").toList,
        ("]" ++ ".").toList, ?_⟩
      simp [citizenship_message, pyStrList, toList_append, List.append_assoc]
    have hfin := (hq.trans hj).trans hwrap
    simpa [containsSub] using hfin

/-- C3 witness: a citizenship query with no subtopic match produces the
subtopic listing, on a table with one subtopic. -/
theorem citizenship_sentinel_lists_subtopics_witness :
    answer_question_nlp nlpFail spellAllKnown
      ⟨[], [], [], [("birth", "citizenship birth")], []⟩ "citizenship" =
      citizenship_message [("birth", "citizenship birth")] :=
  (citizenship_sentinel_lists_subtopics nlpFail spellAllKnown
    ⟨[], [], [], [("birth", "citizenship birth")], []⟩ "citizenship"
    (by decide) (by decide) (by decide) (by decide)).1
